import Mathlib

/-!
Shallow embedding of the Embedded Content Viewer component
(frontend/src/components/interactive/InteractiveOutput.tsx, the variant
taking optional url and htmlContent props), together with a small model of
the JavaScript value semantics its handlers rely on (truthiness, strict
equality against a string literal, numeric coercion in arithmetic and in
Math.min / Math.max).
-/

namespace InteractiveOutput

/-- Model of the JavaScript primitive values that can appear in the fields
of a message payload or flow through the height computation.  JS numbers are
restricted to integers here (every number occurring in the component and in
the claims is an integer); NaN is a separate constructor. -/
inductive JSVal where
  | num (n : Int)
  | nan
  | str (s : String)
  | boolean (b : Bool)
  | null
  | undefinedV
deriving DecidableEq

/-- JS truthiness of a primitive value: 0, NaN, the empty string, false,
null and undefined are falsy, everything else is truthy. -/
def truthy : JSVal → Bool
  | .num n => decide (n ≠ 0)
  | .nan => false
  | .str s => decide (s ≠ "")
  | .boolean b => b
  | .null => false
  | .undefinedV => false

/-- Whitespace characters recognised when trimming a string before numeric
conversion (the forms that occur in this development). -/
def isJsWhitespace (c : Char) : Bool :=
  c = ' ' || c = '\t' || c = '\n' || c = '\r'

/-- Trim leading and trailing whitespace from a character list. -/
def jsTrimData (cs : List Char) : List Char :=
  ((cs.dropWhile isJsWhitespace).reverse.dropWhile isJsWhitespace).reverse

/-- Value of a decimal digit character, none for a non-digit. -/
def digitVal? (c : Char) : Option Nat :=
  if c.isDigit then some (Char.toNat c - Char.toNat '0') else none

/-- Value of a non-empty all-decimal-digit character list, none otherwise. -/
def decDigitsVal (cs : List Char) : Option Nat :=
  if cs.isEmpty then none
  else
    cs.foldl
      (fun acc c =>
        match acc, digitVal? c with
        | some a, some d => some (a * 10 + d)
        | _, _ => none)
      (some 0)

/-- Model of the ECMAScript ToNumber conversion on strings, restricted to
the fragment exercised here: surrounding whitespace is trimmed, the empty
string converts to 0, an optionally signed decimal integer literal converts
to its value, and every other string converts to NaN (none).  Fractional,
exponential, hexadecimal and Infinity forms do not occur in this
development and are mapped to NaN. -/
def jsStringToNumber (s : String) : Option Int :=
  match jsTrimData s.data with
  | [] => some 0
  | c :: cs =>
    if c = '-' then (decDigitsVal cs).map (fun n => -(n : Int))
    else if c = '+' then (decDigitsVal cs).map (fun n => (n : Int))
    else (decDigitsVal (c :: cs)).map (fun n => (n : Int))

/-- ECMAScript ToNumber on the modelled primitives; none stands for NaN. -/
def toNumber : JSVal → Option Int
  | .num n => some n
  | .nan => none
  | .str s => jsStringToNumber s
  | .boolean b => some (if b then 1 else 0)
  | .null => some 0
  | .undefinedV => none

/-- ECMAScript ToString on the modelled primitives. -/
def toJSString : JSVal → String
  | .num n => toString n
  | .nan => "NaN"
  | .str s => s
  | .boolean b => if b then "true" else "false"
  | .null => "null"
  | .undefinedV => "undefined"

/-- The JS binary + operator on primitives: if either operand is a string
the result is string concatenation, otherwise both operands are converted
to numbers and added (NaN-propagating). -/
def jsAdd (a b : JSVal) : JSVal :=
  match a, b with
  | .str sa, _ => .str (sa ++ toJSString b)
  | _, .str sb => .str (toJSString a ++ sb)
  | _, _ =>
    match toNumber a, toNumber b with
    | some x, some y => .num (x + y)
    | _, _ => .nan

/-- Math.max on two arguments: converts both to numbers, NaN if either
conversion fails. -/
def jsMax (a b : JSVal) : JSVal :=
  match toNumber a, toNumber b with
  | some x, some y => .num (max x y)
  | _, _ => .nan

/-- Math.min on two arguments: converts both to numbers, NaN if either
conversion fails. -/
def jsMin (a b : JSVal) : JSVal :=
  match toNumber a, toNumber b with
  | some x, some y => .num (min x y)
  | _, _ => .nan

/-- Model of the data carried by an incoming window message event: either a
JS object, of which only the two fields read by the handler (type and
height) are relevant — an absent field reads as undefined — or a primitive
value, whose optional-chained property reads also yield undefined. -/
inductive EventData where
  | obj (tField hField : JSVal)
  | prim (v : JSVal)
deriving DecidableEq

/-- The read event.data?.type performed by the handler. -/
def dataType : EventData → JSVal
  | .obj t _ => t
  | .prim _ => .undefinedV

/-- The read event.data?.height performed by the handler. -/
def dataHeight : EventData → JSVal
  | .obj _ h => h
  | .prim _ => .undefinedV

/-- Guard of handleMessage, transcribing
event.data?.type === "resize" && event.data?.height :
the type field must be strictly equal to the string "resize" and the height
field must be truthy. -/
def acceptsResize (d : EventData) : Bool :=
  decide (dataType d = JSVal.str "resize") && truthy (dataHeight d)

/-- Height computation of an accepted message, transcribing
Math.min(Math.max(event.data.height + 40, 300), 800). -/
def newHeight (h : JSVal) : JSVal :=
  jsMin (jsMax (jsAdd h (JSVal.num 40)) (JSVal.num 300)) (JSVal.num 800)

/-! String.prototype.replace with a string pattern replaces only the first
occurrence of the pattern.  It is embedded below on character lists.  (The
replacement string used by the component contains no dollar sign, so the
special replacement patterns of the JS method do not arise.) -/

/-- Whether the first list is an initial segment of the second. -/
def leadsWith : List Char → List Char → Bool
  | [], _ => true
  | _ :: _, [] => false
  | p :: ps, c :: cs => decide (p = c) && leadsWith ps cs

/-- Number of positions of s at which pat occurs. -/
def occCount (pat : List Char) : List Char → Nat
  | [] => 0
  | c :: rest => (if leadsWith pat (c :: rest) then 1 else 0) + occCount pat rest

/-- Split s around the first occurrence of pat: some (before, after) when
pat occurs, none otherwise. -/
def splitAtFirst (pat : List Char) : List Char → Option (List Char × List Char)
  | [] => none
  | c :: rest =>
    if leadsWith pat (c :: rest) then
      some ([], List.drop pat.length (c :: rest))
    else
      match splitAtFirst pat rest with
      | none => none
      | some (a, b) => some (c :: a, b)

/-- Replace the first occurrence of pat in s by rep; s unchanged when pat
does not occur. -/
def replaceFirst (pat rep s : List Char) : List Char :=
  match splitAtFirst pat s with
  | none => s
  | some (a, b) => a ++ rep ++ b

/-- Embedding of htmlContent.replace(pat, rep) for a string pattern. -/
def jsReplaceFirst (s pat rep : String) : String :=
  ⟨replaceFirst pat.data rep.data s.data⟩

/-- The closing body tag the component searches for. -/
def bodyCloseTag : String := "</body>"

/-- The script element text the component injects (the template literal in
the source, up to but excluding its trailing closing body tag). -/
def injectedScriptTag : String :=
  "<script>\n                new ResizeObserver(() => \x7b\n                    parent.postMessage(\x7b type: \x27resize\x27, height: document.body.scrollHeight \x7d, \x27*\x27);\n                \x7d).observe(document.body);\n                setTimeout(() => \x7b\n                    parent.postMessage(\x7b type: \x27resize\x27, height: document.body.scrollHeight \x7d, \x27*\x27);\n                \x7d, 1000);\n              </script>"

/-- The full replacement string of the source's replace call (its template
literal ends with the closing body tag). -/
def resizeReplacement : String := injectedScriptTag ++ bodyCloseTag

/-- The rewrite applied to inline HTML, transcribing
htmlContent.replace("</body>", resizeReplacement). -/
def injectHtml (html : String) : String :=
  jsReplaceFirst html bodyCloseTag resizeReplacement

/-- The component's props: both are optional strings. -/
structure Props where
  url : Option String
  htmlContent : Option String
deriving DecidableEq

/-- JS truthiness of a string-or-undefined prop: present and non-empty. -/
def optTruthy : Option String → Bool
  | some s => decide (s ≠ "")
  | none => false

/-- The enhancedHtml value, transcribing
htmlContent ? htmlContent.replace("</body>", script) : undefined. -/
def enhancedHtml (p : Props) : Option String :=
  if optTruthy p.htmlContent then some (injectHtml (p.htmlContent.getD "")) else none

/-- Content held by the sandboxed iframe: an inline document (srcdoc), a
remote URL (src), or nothing. -/
inductive FrameContent where
  | doc (html : String)
  | remote (u : String)
  | blank
deriving DecidableEq

/-- Content of the iframe as first rendered, transcribing the attributes
srcDoc=enhancedHtml and src=(!htmlContent ? url : undefined); a present
srcdoc document takes precedence over src. -/
def initialFrame (p : Props) : FrameContent :=
  match enhancedHtml p with
  | some d => .doc d
  | none =>
    match p.url with
    | some u => .remote u
    | none => .blank

/-- The component's state: the three useState hooks plus the content
currently loaded in the iframe. -/
structure Viewer where
  isExpanded : Bool
  isLoaded : Bool
  iframeHeight : JSVal
  frame : FrameContent
deriving DecidableEq

/-- State of a freshly mounted component:
useState(false), useState(false), useState(450), and the iframe content
determined by the render attributes. -/
def initViewer (p : Props) : Viewer :=
  { isExpanded := false
    isLoaded := false
    iframeHeight := JSVal.num 450
    frame := initialFrame p }

/-- The message handler, transcribing handleMessage: on a payload whose
type field is strictly "resize" and whose height field is truthy, set the
iframe height to the clamped value; otherwise do nothing. -/
def handleMessage (v : Viewer) (d : EventData) : Viewer :=
  if acceptsResize d then
    { v with iframeHeight := newHeight (dataHeight d) }
  else v

/-- The refresh handler, transcribing handleRefresh (the iframe ref is
taken to be attached, as the iframe is always rendered): assign srcdoc the
raw htmlContent when that prop is truthy, otherwise assign src the url
when truthy, otherwise do nothing.  No other state field is touched. -/
def handleRefresh (p : Props) (v : Viewer) : Viewer :=
  if optTruthy p.htmlContent then
    { v with frame := FrameContent.doc (p.htmlContent.getD "") }
  else if optTruthy p.url then
    { v with frame := FrameContent.remote (p.url.getD "") }
  else v

/-- The iframe load-complete handler, transcribing onLoad=setIsLoaded(true). -/
def onIframeLoad (v : Viewer) : Viewer :=
  { v with isLoaded := true }

/-- The expand/collapse toolbar action, transcribing
setIsExpanded(!isExpanded). -/
def toggleExpanded (v : Viewer) : Viewer :=
  { v with isExpanded := !v.isExpanded }

/-- Height given to the iframe element by the render, transcribing
isExpanded ? "calc(100vh - 80px)" : iframeHeight px. -/
inductive RenderedHeight where
  | viewportDerived
  | px (h : JSVal)
deriving DecidableEq

/-- The iframe height style as rendered from the current state. -/
def renderedHeight (v : Viewer) : RenderedHeight :=
  if v.isExpanded then .viewportDerived else .px v.iframeHeight

/-- A top-level browsing context opened by the open-in-new-tab action:
either a blob document materialising inline content, or a URL. -/
inductive OpenedTarget where
  | blobDoc (content : String)
  | urlTab (u : String)
deriving DecidableEq

/-- Viewer state together with the record of externally opened contexts. -/
structure World where
  viewer : Viewer
  openedTabs : List OpenedTarget
deriving DecidableEq

/-- The open-in-new-tab action, transcribing openInNewTab: for truthy
htmlContent, create a blob of the raw inline content and open it; else for
a truthy url, open the url; in both cases the viewer state is untouched. -/
def openInNewTab (p : Props) (w : World) : World :=
  if optTruthy p.htmlContent then
    { w with openedTabs := w.openedTabs ++ [OpenedTarget.blobDoc (p.htmlContent.getD "")] }
  else if optTruthy p.url then
    { w with openedTabs := w.openedTabs ++ [OpenedTarget.urlTab (p.url.getD "")] }
  else w

/-- The embedded document as seen by the injected script: only its body
scroll height is read. -/
structure EmbeddedDoc where
  bodyScrollHeight : Int
deriving DecidableEq

/-- A postMessage call: the payload and the targetOrigin argument. -/
structure PostedMessage where
  payload : EventData
  targetOrigin : String
deriving DecidableEq

/-- Transcription of the ResizeObserver callback of the injected script:
parent.postMessage(obj with type resize and height the body scroll height,
to target origin star). -/
def scriptObserverCallback (d : EmbeddedDoc) : PostedMessage :=
  { payload := EventData.obj (JSVal.str "resize") (JSVal.num d.bodyScrollHeight)
    targetOrigin := "*" }

/-- Transcription of the setTimeout callback of the injected script, which
posts the same message as the observer callback. -/
def scriptTimeoutCallback (d : EmbeddedDoc) : PostedMessage :=
  { payload := EventData.obj (JSVal.str "resize") (JSVal.num d.bodyScrollHeight)
    targetOrigin := "*" }

/-- The delay argument of the injected script's setTimeout call. -/
def scriptTimeoutDelayMs : Nat := 1000

/-- Written from the specification's words, for comparison with the code's
guard: the exact SizeReport shape, a payload object whose type field is the
string "resize" and whose height field is a number. -/
def specSizeReportShape (d : EventData) : Bool :=
  match d with
  | .obj (JSVal.str t) (JSVal.num _) => decide (t = "resize")
  | _ => false

/-! Concrete sample inputs used to instantiate the theorems below. -/

/-- A viewer mounted with neither prop supplied. -/
def v0 : Viewer := initViewer { url := none, htmlContent := none }

/-- An expanded viewer state. -/
def vExp : Viewer :=
  { isExpanded := true
    isLoaded := false
    iframeHeight := JSVal.num 450
    frame := FrameContent.blank }

/-- A world around the viewer with no externally opened contexts yet. -/
def w0 : World := { viewer := v0, openedTabs := [] }

/-- Props with inline HTML only. -/
def p3 : Props := { url := none, htmlContent := some "<html><body>hi</body></html>" }

/-- Props with a URL only. -/
def p4 : Props := { url := some "https://example.com/app", htmlContent := none }

/-- Props with both a URL and inline HTML supplied. -/
def p10 : Props :=
  { url := some "https://example.com/page", htmlContent := some "<html><body>ok</body></html>" }

/-- Props with a small inline document. -/
def pInline : Props := { url := none, htmlContent := some "<p>z</p>" }

/-- The inline document of the spec's test scenario. -/
def sampleHtmlC5 : String := "<html><body><div>hi</div></body></html>"

/-- A small inline document with a closing body tag. -/
def sampleHtmlC6 : String := "<html><body>x</body></html>"

/-! Lemmas about the first-occurrence replacement. -/

theorem leadsWith_iff : ∀ p s : List Char, leadsWith p s = true ↔ ∃ t, s = p ++ t
  | [], s => by simp [leadsWith]
  | _ :: _, [] => by simp [leadsWith]
  | p :: ps, c :: cs => by
    simp only [leadsWith, Bool.and_eq_true, decide_eq_true_eq, List.cons_append,
      List.cons.injEq]
    constructor
    · rintro ⟨h1, h2⟩
      rcases (leadsWith_iff ps cs).mp h2 with ⟨t, ht⟩
      exact ⟨t, h1.symm, ht⟩
    · rintro ⟨t, h1, h2⟩
      exact ⟨h1.symm, (leadsWith_iff ps cs).mpr ⟨t, h2⟩⟩

theorem leadsWith_append (p l m : List Char) (h : leadsWith p l = true) :
    leadsWith p (l ++ m) = true := by
  rcases (leadsWith_iff p l).mp h with ⟨t, rfl⟩
  exact (leadsWith_iff p _).mpr ⟨t ++ m, by simp⟩

theorem drop_len_append (p t : List Char) : List.drop p.length (p ++ t) = t := by
  induction p with
  | nil => rfl
  | cons c cs ih => simp [ih]

theorem occCount_cons (pat : List Char) (c : Char) (rest : List Char) :
    occCount pat (c :: rest)
      = (if leadsWith pat (c :: rest) = true then 1 else 0) + occCount pat rest := rfl

theorem occCount_le_append (pat : List Char) :
    ∀ l m : List Char, occCount pat m ≤ occCount pat (l ++ m)
  | [], _ => le_refl _
  | c :: l, m => by
    simp only [List.cons_append, occCount]
    exact le_trans (occCount_le_append pat l m) (Nat.le_add_left _ _)

theorem splitAtFirst_none_iff (pat : List Char) :
    ∀ s : List Char, splitAtFirst pat s = none ↔ occCount pat s = 0
  | [] => by simp [splitAtFirst, occCount]
  | c :: rest => by
    have ih := splitAtFirst_none_iff pat rest
    cases hlw : leadsWith pat (c :: rest) with
    | true => simp [splitAtFirst, occCount, hlw]
    | false =>
      cases hr : splitAtFirst pat rest with
      | none => simp [splitAtFirst, occCount, hlw, hr, ih.mp hr]
      | some ab =>
        have h1 : occCount pat rest ≠ 0 := by
          intro h0
          rw [ih.mpr h0] at hr
          cases hr
        simp [splitAtFirst, occCount, hlw, hr, h1]

theorem splitAtFirst_some_spec (pat : List Char) :
    ∀ s a b : List Char, splitAtFirst pat s = some (a, b) →
      s = a ++ pat ++ b ∧ occCount pat a = 0
  | [], a, b => by intro h; cases h
  | c :: rest, a, b => by
    intro h
    cases hlw : leadsWith pat (c :: rest) with
    | true =>
      rcases (leadsWith_iff pat (c :: rest)).mp hlw with ⟨t, hts⟩
      simp only [splitAtFirst, hlw, if_true, Option.some.injEq, Prod.mk.injEq] at h
      rcases h with ⟨ha, hb⟩
      subst ha
      refine ⟨?_, rfl⟩
      rw [← hb, hts, drop_len_append]
      simp
    | false =>
      simp only [splitAtFirst, hlw, Bool.false_eq_true, if_false] at h
      cases hr : splitAtFirst pat rest with
      | none => rw [hr] at h; cases h
      | some ab =>
        obtain ⟨a', b'⟩ := ab
        rw [hr] at h
        simp only [Option.some.injEq, Prod.mk.injEq] at h
        rcases h with ⟨ha, hb⟩
        obtain ⟨hrest, ha'0⟩ := splitAtFirst_some_spec pat rest a' b' hr
        refine ⟨?_, ?_⟩
        · rw [← ha, ← hb, hrest]
          simp
        · rw [← ha]
          have hnl : leadsWith pat (c :: a') = false := by
            cases hl2 : leadsWith pat (c :: a') with
            | false => rfl
            | true =>
              have h3 := leadsWith_append pat (c :: a') (pat ++ b') hl2
              rw [show (c :: a') ++ (pat ++ b') = c :: rest by simp [hrest]] at h3
              rw [h3] at hlw
              cases hlw
          simp [occCount, hnl, ha'0]

theorem occCount_self_append (pat b : List Char) (hp : pat ≠ []) :
    1 + occCount pat b ≤ occCount pat (pat ++ b) := by
  cases pat with
  | nil => cases hp rfl
  | cons p ps =>
    have hlw2 : leadsWith (p :: ps) (p :: (ps ++ b)) = true :=
      (leadsWith_iff _ _).mpr ⟨b, rfl⟩
    have hstep : occCount (p :: ps) (p :: (ps ++ b))
        = 1 + occCount (p :: ps) (ps ++ b) := by
      rw [occCount_cons, hlw2]
      simp
    calc 1 + occCount (p :: ps) b
        ≤ 1 + occCount (p :: ps) (ps ++ b) :=
          Nat.add_le_add_left (occCount_le_append _ ps b) 1
      _ = occCount (p :: ps) (p :: (ps ++ b)) := hstep.symm

theorem replaceFirst_of_count_zero (pat rep s : List Char)
    (h0 : occCount pat s = 0) : replaceFirst pat rep s = s := by
  unfold replaceFirst
  rw [(splitAtFirst_none_iff pat s).mpr h0]

theorem replaceFirst_of_count_one (pat rep s : List Char) (hp : pat ≠ [])
    (h1 : occCount pat s = 1) :
    ∃ a b, s = a ++ pat ++ b ∧ occCount pat a = 0 ∧ occCount pat b = 0 ∧
      replaceFirst pat rep s = a ++ rep ++ b := by
  cases hr : splitAtFirst pat s with
  | none =>
    rw [(splitAtFirst_none_iff pat s).mp hr] at h1
    cases h1
  | some ab =>
    obtain ⟨a, b⟩ := ab
    obtain ⟨hs, ha⟩ := splitAtFirst_some_spec pat s a b hr
    have hb : occCount pat b = 0 := by
      have h2 : 1 + occCount pat b ≤ occCount pat (pat ++ b) :=
        occCount_self_append pat b hp
      have h3 : occCount pat (pat ++ b) ≤ occCount pat (a ++ (pat ++ b)) :=
        occCount_le_append pat a _
      rw [hs, List.append_assoc] at h1
      omega
    refine ⟨a, b, hs, ha, hb, ?_⟩
    unfold replaceFirst
    rw [hr]

theorem data_append (s t : String) : (s ++ t).data = s.data ++ t.data := rfl

/-! The claims. -/

/-- C1: every accepted SizeReport message with numeric height h updates the
viewer's height to clamp(h + 40, 300, 800); in particular height 1000
yields 800 and height 100 yields 300, out-of-bounds values being clamped
rather than rejected. -/
theorem c1_accepted_resize_clamped :
    (∀ (v : Viewer) (n : Int), n ≠ 0 →
        handleMessage v (EventData.obj (JSVal.str "resize") (JSVal.num n))
          = { v with iframeHeight := JSVal.num (min (max (n + 40) 300) 800) }) ∧
    (∀ v : Viewer,
        (handleMessage v (EventData.obj (JSVal.str "resize") (JSVal.num 1000))).iframeHeight
          = JSVal.num 800) ∧
    (∀ v : Viewer,
        (handleMessage v (EventData.obj (JSVal.str "resize") (JSVal.num 100))).iframeHeight
          = JSVal.num 300) := by
  refine ⟨?_, fun _ => rfl, fun _ => rfl⟩
  intro v n hn
  have hacc : acceptsResize (EventData.obj (JSVal.str "resize") (JSVal.num n)) = true := by
    simp [acceptsResize, dataType, dataHeight, truthy, hn]
  simp [handleMessage, hacc, dataHeight, newHeight, jsAdd, toNumber, jsMax, jsMin]

/-- Witness for C1 at height 1000. -/
theorem c1_accepted_resize_clamped_witness :
    ((1000 : Int) ≠ 0) ∧
    handleMessage v0 (EventData.obj (JSVal.str "resize") (JSVal.num 1000))
      = { v0 with iframeHeight := JSVal.num (min (max ((1000 : Int) + 40) 300) 800) } :=
  ⟨by decide, c1_accepted_resize_clamped.1 v0 1000 (by decide)⟩

/-- C2 counterexample: the payload with type "resize" and the string height
"100" does not match the spec's SizeReport shape (its height is not a
number), yet the handler accepts it — string concatenation and numeric
coercion turn it into 10040, clamped to 800 — so the state changes. -/
theorem c2_shape_only_guard_counterexample :
    specSizeReportShape (EventData.obj (JSVal.str "resize") (JSVal.str "100")) = false ∧
    handleMessage v0 (EventData.obj (JSVal.str "resize") (JSVal.str "100")) ≠ v0 ∧
    (handleMessage v0 (EventData.obj (JSVal.str "resize") (JSVal.str "100"))).iframeHeight
      = JSVal.num 800 := by
  refine ⟨rfl, by decide, by decide⟩

/-- C2 amended: the handler accepts exactly the payloads whose type field
is strictly the string "resize" and whose height field is truthy; every
other payload is silently ignored, leaving the state unchanged.  A truthy
non-numeric height is accepted and coerced rather than ignored, so the
guard is truthiness, not a shape check. -/
theorem c2_guard_truthiness :
    (∀ (v : Viewer) (d : EventData), acceptsResize d = false → handleMessage v d = v) ∧
    (∀ (v : Viewer) (d : EventData), acceptsResize d = true →
        handleMessage v d = { v with iframeHeight := newHeight (dataHeight d) }) ∧
    (∀ d : EventData,
        acceptsResize d = true
          ↔ (dataType d = JSVal.str "resize" ∧ truthy (dataHeight d) = true)) := by
  refine ⟨?_, ?_, ?_⟩
  · intro v d h
    simp [handleMessage, h]
  · intro v d h
    simp [handleMessage, h]
  · intro d
    simp [acceptsResize, Bool.and_eq_true, decide_eq_true_eq]

/-- Witness for C2 amended at the noise payload with no recognised fields. -/
theorem c2_guard_truthiness_witness :
    acceptsResize (EventData.obj JSVal.undefinedV JSVal.undefinedV) = false ∧
    handleMessage v0 (EventData.obj JSVal.undefinedV JSVal.undefinedV) = v0 :=
  ⟨by decide, c2_guard_truthiness.1 v0 (EventData.obj JSVal.undefinedV JSVal.undefinedV) (by decide)⟩

/-- C9: a payload of the exact SizeReport shape with height 0 is
nevertheless ignored — the guard requires a truthy height, and 0 is falsy —
so the height does not become the lower clamp bound 300. -/
theorem c9_zero_height_ignored :
    specSizeReportShape (EventData.obj (JSVal.str "resize") (JSVal.num 0)) = true ∧
    ∀ v : Viewer,
      handleMessage v (EventData.obj (JSVal.str "resize") (JSVal.num 0)) = v ∧
      (handleMessage v (EventData.obj (JSVal.str "resize") (JSVal.num 0))).iframeHeight
        = v.iframeHeight :=
  ⟨rfl, fun _v => ⟨rfl, rfl⟩⟩

set_option maxRecDepth 8192 in
/-- C3 counterexample: for an inline-HTML source, refresh assigns the raw
input HTML to the iframe, not the enhanced document with the injected
sizing script that the initial render resolved. -/
theorem c3_refresh_uses_raw_counterexample :
    (initViewer p3).frame = FrameContent.doc (injectHtml "<html><body>hi</body></html>") ∧
    (handleRefresh p3 (initViewer p3)).frame
      = FrameContent.doc "<html><body>hi</body></html>" ∧
    (handleRefresh p3 (initViewer p3)).frame
      ≠ FrameContent.doc (injectHtml "<html><body>hi</body></html>") := by
  refine ⟨by decide, by decide, by decide⟩

/-- C3 amended: refresh destroys the current document and reloads from the
ContentSource, but for an inline-HTML source it loads the raw inline HTML
(without the injected sizing script, unlike the initial load); for a URL
source the same URL is reloaded. -/
theorem c3_refresh_reloads_source :
    (∀ (p : Props) (v : Viewer) (h : String), p.htmlContent = some h → h ≠ "" →
        handleRefresh p v = { v with frame := FrameContent.doc h }) ∧
    (∀ (p : Props) (v : Viewer) (u : String), optTruthy p.htmlContent = false →
        p.url = some u → u ≠ "" →
        handleRefresh p v = { v with frame := FrameContent.remote u }) := by
  constructor
  · intro p v h hsome hne
    simp [handleRefresh, optTruthy, hsome, hne]
  · intro p v u hh hu hne
    unfold handleRefresh
    rw [hh, hu]
    simp [optTruthy, hne]

/-- Witness for C3 amended at the inline props. -/
theorem c3_refresh_reloads_source_witness :
    p3.htmlContent = some "<html><body>hi</body></html>" ∧
    ("<html><body>hi</body></html>" : String) ≠ "" ∧
    handleRefresh p3 (initViewer p3)
      = { initViewer p3 with frame := FrameContent.doc "<html><body>hi</body></html>" } :=
  ⟨rfl, by decide,
    c3_refresh_reloads_source.1 p3 (initViewer p3) "<html><body>hi</body></html>" rfl
      (by decide)⟩

/-- C4 counterexample: with the loaded flag true, refresh leaves it true —
it is not reset to false. -/
theorem c4_refresh_keeps_loaded_counterexample :
    (onIframeLoad (initViewer p4)).isLoaded = true ∧
    (handleRefresh p4 (onIframeLoad (initViewer p4))).isLoaded ≠ false := by
  refine ⟨rfl, by decide⟩

/-- C4 amended: refresh never changes the loaded flag (for any props and
any prior state); the flag is set to true by the load-complete signal of
the iframe. -/
theorem c4_loaded_untouched_by_refresh :
    (∀ (p : Props) (v : Viewer), (handleRefresh p v).isLoaded = v.isLoaded) ∧
    (∀ v : Viewer, (onIframeLoad v).isLoaded = true) := by
  constructor
  · intro p v
    unfold handleRefresh
    split
    · rfl
    · split
      · rfl
      · rfl
  · intro v
    rfl

/-- C5: inline HTML containing the closing body tag exactly once is rewritten
to carry exactly one injected script block immediately preceding that tag;
inline HTML without a closing body tag is returned unchanged.  Both cases
are total — no exception path exists. -/
theorem c5_injection_contract :
    (∀ html : String, occCount bodyCloseTag.data html.data = 1 →
        ∃ a b : List Char, html.data = a ++ bodyCloseTag.data ++ b ∧
          occCount bodyCloseTag.data a = 0 ∧ occCount bodyCloseTag.data b = 0 ∧
          (injectHtml html).data
            = a ++ injectedScriptTag.data ++ bodyCloseTag.data ++ b) ∧
    (∀ html : String, occCount bodyCloseTag.data html.data = 0 →
        injectHtml html = html) := by
  constructor
  · intro html h1
    obtain ⟨a, b, hs, ha, hb, hrep⟩ :=
      replaceFirst_of_count_one bodyCloseTag.data resizeReplacement.data html.data
        (by decide) h1
    refine ⟨a, b, hs, ha, hb, ?_⟩
    have hdata : (injectHtml html).data
        = replaceFirst bodyCloseTag.data resizeReplacement.data html.data := rfl
    rw [hdata, hrep]
    have hrr : resizeReplacement.data = injectedScriptTag.data ++ bodyCloseTag.data := rfl
    rw [hrr]
    simp [List.append_assoc]
  · intro html h0
    have hdata : replaceFirst bodyCloseTag.data resizeReplacement.data html.data
        = html.data := replaceFirst_of_count_zero _ _ _ h0
    show String.mk (replaceFirst bodyCloseTag.data resizeReplacement.data html.data) = html
    rw [hdata]

/-- Witness for C5 at the spec's sample inline document. -/
theorem c5_injection_contract_witness :
    occCount bodyCloseTag.data sampleHtmlC5.data = 1 ∧
    (∃ a b : List Char, sampleHtmlC5.data = a ++ bodyCloseTag.data ++ b ∧
      occCount bodyCloseTag.data a = 0 ∧ occCount bodyCloseTag.data b = 0 ∧
      (injectHtml sampleHtmlC5).data
        = a ++ injectedScriptTag.data ++ bodyCloseTag.data ++ b) :=
  ⟨by decide, c5_injection_contract.1 sampleHtmlC5 (by decide)⟩

/-- C6: for inline HTML with a closing body tag, the injected script block
is embedded immediately before that tag, and the script (transcribed as
scriptObserverCallback, scriptTimeoutCallback and scriptTimeoutDelayMs)
posts a payload with type "resize" and height the body scroll height to
the parent with the unrestricted target origin star, both from the
ResizeObserver callback on each observed change and once from the
setTimeout callback after a fixed 1000 ms settling delay. -/
theorem c6_injected_script_contract :
    (∀ d : EmbeddedDoc, scriptObserverCallback d
        = { payload := EventData.obj (JSVal.str "resize") (JSVal.num d.bodyScrollHeight)
            targetOrigin := "*" }) ∧
    (∀ d : EmbeddedDoc, scriptTimeoutCallback d
        = { payload := EventData.obj (JSVal.str "resize") (JSVal.num d.bodyScrollHeight)
            targetOrigin := "*" }) ∧
    scriptTimeoutDelayMs = 1000 ∧
    (∀ (html : String) (a b : List Char),
        splitAtFirst bodyCloseTag.data html.data = some (a, b) →
        (injectHtml html).data
          = a ++ injectedScriptTag.data ++ bodyCloseTag.data ++ b) := by
  refine ⟨fun _ => rfl, fun _ => rfl, rfl, ?_⟩
  intro html a b hr
  have hdata : (injectHtml html).data
      = replaceFirst bodyCloseTag.data resizeReplacement.data html.data := rfl
  rw [hdata]
  unfold replaceFirst
  rw [hr]
  have hrr : resizeReplacement.data = injectedScriptTag.data ++ bodyCloseTag.data := rfl
  simp [hrr, List.append_assoc]

set_option maxRecDepth 8192 in
/-- Witness for C6 at a small inline document. -/
theorem c6_injected_script_contract_witness :
    splitAtFirst bodyCloseTag.data sampleHtmlC6.data
      = some ("<html><body>x".data, "</html>".data) ∧
    (injectHtml sampleHtmlC6).data
      = "<html><body>x".data ++ injectedScriptTag.data ++ bodyCloseTag.data
        ++ "</html>".data :=
  ⟨by decide,
    c6_injected_script_contract.2.2.2 sampleHtmlC6 "<html><body>x".data "</html>".data
      (by decide)⟩

/-- C7: toggling the expanded flag is an involution on the whole viewer
state, never changes the stored height, and the rendered iframe height is
viewport-derived exactly when expanded and governed by the stored height
exactly when collapsed. -/
theorem c7_toggle_involution :
    (∀ v : Viewer, toggleExpanded (toggleExpanded v) = v) ∧
    (∀ v : Viewer, (toggleExpanded v).iframeHeight = v.iframeHeight) ∧
    (∀ v : Viewer, v.isExpanded = true → renderedHeight v = RenderedHeight.viewportDerived) ∧
    (∀ v : Viewer, v.isExpanded = false →
        renderedHeight v = RenderedHeight.px v.iframeHeight) := by
  refine ⟨?_, fun _ => rfl, ?_, ?_⟩
  · intro v
    simp [toggleExpanded]
  · intro v h
    simp [renderedHeight, h]
  · intro v h
    simp [renderedHeight, h]

/-- Witness for C7 at an expanded viewer state. -/
theorem c7_toggle_involution_witness :
    vExp.isExpanded = true ∧ renderedHeight vExp = RenderedHeight.viewportDerived :=
  ⟨rfl, c7_toggle_involution.2.2.1 vExp rfl⟩

/-- C8: the open-externally action never mutates the viewer state (and the
props, hence the ContentSource, are immutable inputs); for an inline-HTML
source it materialises the raw inline content as a standalone blob
document and opens it, and for a URL source it opens the URL in a new
top-level context. -/
theorem c8_open_externally_pure :
    (∀ (p : Props) (w : World), (openInNewTab p w).viewer = w.viewer) ∧
    (∀ (p : Props) (w : World) (h : String), p.htmlContent = some h → h ≠ "" →
        openInNewTab p w
          = { w with openedTabs := w.openedTabs ++ [OpenedTarget.blobDoc h] }) ∧
    (∀ (p : Props) (w : World) (u : String), optTruthy p.htmlContent = false →
        p.url = some u → u ≠ "" →
        openInNewTab p w
          = { w with openedTabs := w.openedTabs ++ [OpenedTarget.urlTab u] }) := by
  refine ⟨?_, ?_, ?_⟩
  · intro p w
    unfold openInNewTab
    split
    · rfl
    · split
      · rfl
      · rfl
  · intro p w h hsome hne
    simp [openInNewTab, optTruthy, hsome, hne]
  · intro p w u hh hu hne
    unfold openInNewTab
    rw [hh, hu]
    simp [optTruthy, hne]

/-- Witness for C8 at an inline-HTML source. -/
theorem c8_open_externally_pure_witness :
    pInline.htmlContent = some "<p>z</p>" ∧
    ("<p>z</p>" : String) ≠ "" ∧
    openInNewTab pInline w0
      = { w0 with openedTabs := w0.openedTabs ++ [OpenedTarget.blobDoc "<p>z</p>"] } :=
  ⟨rfl, by decide, c8_open_externally_pure.2.1 pInline w0 "<p>z</p>" rfl (by decide)⟩

set_option maxRecDepth 8192 in
/-- C10 counterexample: with both a URL and inline HTML supplied, the
initial load shows the enhanced inline document, but a refresh loads the
raw inline HTML, not the enhanced document the claim describes. -/
theorem c10_refresh_not_enhanced_counterexample :
    (initViewer p10).frame = FrameContent.doc (injectHtml "<html><body>ok</body></html>") ∧
    (handleRefresh p10 (initViewer p10)).frame
      = FrameContent.doc "<html><body>ok</body></html>" ∧
    (handleRefresh p10 (initViewer p10)).frame
      ≠ FrameContent.doc (injectHtml "<html><body>ok</body></html>") := by
  refine ⟨by decide, by decide, by decide⟩

/-- C10 amended: when both a URL and non-empty inline HTML are supplied,
the inline HTML takes precedence and the URL is ignored both at initial
load and on every refresh; the initial load shows the enhanced inline
document, while a refresh loads the raw inline HTML. -/
theorem c10_inline_precedence :
    ∀ u h : String, h ≠ "" →
      initialFrame { url := some u, htmlContent := some h }
        = FrameContent.doc (injectHtml h) ∧
      ∀ v : Viewer,
        (handleRefresh { url := some u, htmlContent := some h } v).frame
          = FrameContent.doc h := by
  intro u h hne
  constructor
  · simp [initialFrame, enhancedHtml, optTruthy, hne]
  · intro v
    simp [handleRefresh, optTruthy, hne]

/-- Witness for C10 amended at concrete props. -/
theorem c10_inline_precedence_witness :
    ("<p>hi</p>" : String) ≠ "" ∧
    (initialFrame { url := some "https://example.com/x", htmlContent := some "<p>hi</p>" }
        = FrameContent.doc (injectHtml "<p>hi</p>") ∧
      ∀ v : Viewer,
        (handleRefresh { url := some "https://example.com/x", htmlContent := some "<p>hi</p>" }
            v).frame
          = FrameContent.doc "<p>hi</p>") :=
  ⟨by decide, c10_inline_precedence "https://example.com/x" "<p>hi</p>" (by decide)⟩

end InteractiveOutput
